import Mathlib

set_option maxHeartbeats 1000000

namespace Kzkitty

/-- Game-mode variants. The `Mode` enum revision that includes the CS2 modes
(`CKZ`, `VNL2`) is not present under src (src models.py is an older revision);
the two extra values are reconstructed from their uses in cs2.py and
api/kz/__init__.py. -/
inductive Mode where
  | KZT
  | SKZ
  | VNL
  | CKZ
  | VNL2
deriving DecidableEq, Repr

/-- Run class (the source enum `Type` in models.py; renamed because `Type` is
reserved in Lean): teleport run, pro (no-teleport) run, or either. -/
inductive RunType where
  | TP
  | PRO
  | ANY
deriving DecidableEq, Repr

/-- Skill-tier labels, from the `Rank` StrEnum in api/kz/base.py. -/
inductive Rank where
  | UNKNOWN
  | NEW
  | BEGINNER_MINUS
  | BEGINNER
  | BEGINNER_PLUS
  | AMATEUR_MINUS
  | AMATEUR
  | AMATEUR_PLUS
  | CASUAL_MINUS
  | CASUAL
  | CASUAL_PLUS
  | REGULAR_MINUS
  | REGULAR
  | REGULAR_PLUS
  | SKILLED_MINUS
  | SKILLED
  | SKILLED_PLUS
  | EXPERT_MINUS
  | EXPERT
  | EXPERT_PLUS
  | SEMIPRO
  | PRO
  | MASTER
  | LEGEND
deriving DecidableEq, Repr

/-- The string value carried by each `Rank` StrEnum member in api/kz/base.py. -/
def Rank.label : Rank → String
  | .UNKNOWN => "Unknown"
  | .NEW => "New"
  | .BEGINNER_MINUS => "Beginner-"
  | .BEGINNER => "Beginner"
  | .BEGINNER_PLUS => "Beginner+"
  | .AMATEUR_MINUS => "Amateur-"
  | .AMATEUR => "Amateur"
  | .AMATEUR_PLUS => "Amateur+"
  | .CASUAL_MINUS => "Casual-"
  | .CASUAL => "Casual"
  | .CASUAL_PLUS => "Casual+"
  | .REGULAR_MINUS => "Regular-"
  | .REGULAR => "Regular"
  | .REGULAR_PLUS => "Regular+"
  | .SKILLED_MINUS => "Skilled-"
  | .SKILLED => "Skilled"
  | .SKILLED_PLUS => "Skilled+"
  | .EXPERT_MINUS => "Expert-"
  | .EXPERT => "Expert"
  | .EXPERT_PLUS => "Expert+"
  | .SEMIPRO => "Semipro"
  | .PRO => "Pro"
  | .MASTER => "Master"
  | .LEGEND => "Legend"

/-- A row of the local map cache (the tortoise `Map` model). The model-class
revision with `map_id`, `is_cs2`, `pro_tier` and `main_course` is not present
under src (src models.py is an older revision); the fields are reconstructed
from their uses in csgo.py and cs2.py. Thumbnail bytes are modelled as
`List Nat`. -/
structure DbMap where
  map_id : Int
  is_cs2 : Bool
  name : String
  tier : Option Int
  pro_tier : Option Int
  vnl_tier : Option Int
  vnl_pro_tier : Option Int
  main_course : Option String
  thumbnail : Option (List Nat)
deriving DecidableEq, Repr

/-- The error taxonomy raised by the api/kz modules (api/kz/base.py), plus the
Python built-in exceptions that the code can hit outside that taxonomy. -/
inductive PyErr where
  | api (msg : String)
  | connection (msg : String)
  | mapError (msg : String)
  | mapNotFound (msg : String)
  | ambiguousMap (db_maps : List DbMap)
  | indexError
  | attributeError
deriving DecidableEq, Repr

deriving instance DecidableEq for Except

/-- JSON values as decoded by aiohttp `r.json()`. Floats are modelled as
rationals; no settled claim depends on binary floating-point rounding. -/
inductive JSON where
  | null
  | bool (b : Bool)
  | int (n : Int)
  | float (q : ℚ)
  | str (s : String)
  | arr (xs : List JSON)
  | obj (fields : List (String × JSON))

/-- Python `d.get(key)` on a dict: the value, or None when the key is absent.
On a non-dict receiver, `.get` raises AttributeError (the refresh loops index
page entries without checking that they are dicts). -/
def JSON.get : JSON → String → Except PyErr JSON
  | .obj fields, key =>
      .ok (((fields.find? (fun p => p.1 == key)).map Prod.snd).getD .null)
  | _, _ => .error .attributeError

/-- Python `isinstance(x, int)`: note `bool` is a subclass of `int` in Python,
so booleans pass the check and act as 0 or 1. -/
def JSON.isinstInt : JSON → Option Int
  | .int n => some n
  | .bool b => some (if b then 1 else 0)
  | _ => none

/-- Python `isinstance(x, float)` (ints and bools are not float instances). -/
def JSON.isinstFloat : JSON → Option ℚ
  | .float q => some q
  | _ => none

/-- Python `isinstance(x, str)`. -/
def JSON.isinstStr : JSON → Option String
  | .str s => some s
  | _ => none

/-- Python `isinstance(x, bool)` (ints are not bool instances). -/
def JSON.isinstBool : JSON → Option Bool
  | .bool b => some b
  | _ => none

/-- Whether the value is a dict (`isinstance(x, dict)`). -/
def JSON.isObj : JSON → Bool
  | .obj _ => true
  | _ => false

/-- Whether the value is Python None (`x is None`). -/
def JSON.isNull : JSON → Bool
  | .null => true
  | _ => false

/-- The outcome of one outbound HTTP request: a network-level failure
(aiohttp ClientError) or a response with a status code and decoded body. -/
inductive HttpResult where
  | conn
  | resp (status : Int) (body : JSON)

/-! ## Ranking engine (csgo.py lines 505-549, cs2.py lines 483-499) -/

/-- The Python loop
`for threshold, rank in thresholds: if points >= threshold: break`
with `rank` initialized before the loop. The tuple unpacking overwrites `rank`
on every iteration, so when no threshold is met the result is the label of the
LAST list entry, not the initial value; the initial value is only returned for
an empty list. This loop appears in CSGOAPI.get_profile (csgo.py 546-549) and
CS2API.get_profile (cs2.py 496-499). -/
def rankLoop {α : Type} [LinearOrder α] : List (α × Rank) → α → Rank → Rank
  | [], _, rank => rank
  | (threshold, r) :: rest, points, _ =>
      if threshold ≤ points then r else rankLoop rest points r

/-- The mode-specific head of the legacy-family threshold table
(csgo.py lines 505-531). Modes outside the legacy family fall into the
final `else` (KZT) branch, mirroring the source `if/elif/else`. -/
def csgoThresholdsHead (mode : Mode) : List (Int × Rank) :=
  if mode = .VNL then
    [(600000, .LEGEND), (400000, .MASTER), (300000, .PRO),
     (250000, .SEMIPRO), (200000, .EXPERT_PLUS), (180000, .EXPERT),
     (160000, .EXPERT_MINUS), (140000, .SKILLED_PLUS)]
  else if mode = .SKZ then
    [(800000, .LEGEND), (500000, .MASTER), (400000, .PRO),
     (300000, .SEMIPRO), (250000, .EXPERT_PLUS), (230000, .EXPERT),
     (200000, .EXPERT_MINUS), (150000, .SKILLED_PLUS)]
  else
    [(1000000, .LEGEND), (800000, .MASTER), (600000, .PRO),
     (400000, .SEMIPRO), (250000, .EXPERT_PLUS), (230000, .EXPERT),
     (200000, .EXPERT_MINUS), (150000, .SKILLED_PLUS)]

/-- The shared tail of the legacy-family threshold table
(csgo.py lines 532-545). -/
def csgoThresholdsTail : List (Int × Rank) :=
  [(120000, .SKILLED), (100000, .SKILLED_MINUS), (80000, .REGULAR_PLUS),
   (70000, .REGULAR), (60000, .REGULAR_MINUS), (40000, .CASUAL_PLUS),
   (30000, .CASUAL), (20000, .CASUAL_MINUS), (10000, .AMATEUR_PLUS),
   (5000, .AMATEUR), (2000, .AMATEUR_MINUS), (1000, .BEGINNER_PLUS),
   (500, .BEGINNER), (1, .BEGINNER_MINUS)]

/-- The full legacy-family threshold table for a mode. -/
def csgoThresholds (mode : Mode) : List (Int × Rank) :=
  csgoThresholdsHead mode ++ csgoThresholdsTail

/-- The rank computation of CSGOAPI.get_profile (csgo.py lines 546-549):
`rank = Rank.NEW` followed by the threshold loop. -/
def csgoRankForPoints (mode : Mode) (points : Int) : Rank :=
  rankLoop (csgoThresholds mode) points .NEW

/-- The extended-family threshold table (cs2.py lines 487-495). -/
def cs2Thresholds : List (ℚ × Rank) :=
  [(37500, .LEGEND), (35000, .MASTER), (30000, .PRO), (25000, .SEMIPRO),
   (20000, .EXPERT), (15000, .SKILLED), (10000, .REGULAR), (5000, .CASUAL),
   (0, .BEGINNER)]

/-- The rank computation of CS2API.get_profile (cs2.py lines 484-499):
zero points short-circuit to NEW, otherwise `rank = Rank.BEGINNER` followed
by the threshold loop. -/
def cs2RankForPoints (points : ℚ) : Rank :=
  if points = 0 then .NEW else rankLoop cs2Thresholds points .BEGINNER

/-! ## Map-name validation and cache resolution
    (CSGOAPI.get_map, csgo.py 326-340; CS2API.get_map, cs2.py 288-303) -/

/-- One character of the regex character class `[A-za-z0-9_]` from
`re.fullmatch('[A-za-z0-9_]+', name)` (csgo.py line 328, cs2.py line 290).
The first range is written `A-z` in the source, capital A (0x41) through
lowercase z (0x7A), so it also covers the six punctuation characters between
Z and a. Ranges compare code points, as `re` does. -/
def nameCharOk (c : Char) : Bool :=
  ('A' ≤ c && c ≤ 'z') || ('a' ≤ c && c ≤ 'z') || ('0' ≤ c && c ≤ '9') ||
    c == '_'

/-- `re.fullmatch('[A-za-z0-9_]+', name)` succeeds: nonempty and every
character in the class. -/
def validMapName (name : String) : Bool :=
  !name.isEmpty && name.toList.all nameCharOk

/-- Modelled from the spec: the alphanumeric-plus-underscore character class
the map-name validation is specified to enforce (letters, digits,
underscore). Kept for comparison with `nameCharOk`, which embeds the regex
actually in the source. -/
def specNameCharOk (c : Char) : Bool :=
  ('A' ≤ c && c ≤ 'Z') || ('a' ≤ c && c ≤ 'z') || ('0' ≤ c && c ≤ '9') ||
    c == '_'

/-- ASCII lower-casing of one character (Python `str.lower()` and the SQLite
case folding behind `iexact`/`icontains` both fold only ASCII for the
alphanumeric map names at hand). -/
def lowerChar (c : Char) : Char :=
  if 'A' ≤ c ∧ c ≤ 'Z' then Char.ofNat (c.toNat + 32) else c

/-- A string lower-cased to a character list. -/
def lowerStr (s : String) : List Char :=
  s.toList.map lowerChar

/-- `needle.isPrefixOf hay` over characters, written out. -/
def startsWith : List Char → List Char → Bool
  | [], _ => true
  | _ :: _, [] => false
  | a :: as, b :: bs => a == b && startsWith as bs

/-- Substring containment over characters (the SQL LIKE test behind the
tortoise `icontains` filter, applied to already-lowercased strings). -/
def containsSub (needle : List Char) : List Char → Bool
  | [] => needle.isEmpty
  | c :: rest => startsWith needle (c :: rest) || containsSub needle rest

/-- The tortoise filter `name__iexact=name, is_cs2=cs2`: case-insensitive
name equality within one catalog family. -/
def iexactPred (cs2 : Bool) (name : String) (m : DbMap) : Bool :=
  m.is_cs2 == cs2 && lowerStr m.name == lowerStr name

/-- The tortoise filter `name__icontains=name, is_cs2=cs2`: case-insensitive
substring match within one catalog family. -/
def icontainsPred (cs2 : Bool) (name : String) (m : DbMap) : Bool :=
  m.is_cs2 == cs2 && containsSub (lowerStr name) (lowerStr m.name)

/-- The validation and local-cache portion of get_map (csgo.py lines 326-340,
cs2.py lines 288-303): invalid name fails up front; otherwise an exact
case-insensitive match resolves; otherwise the substring filter either
resolves (one hit), raises the ambiguous error with the full candidate list
(more than one hit), or falls through to the remote by-name lookup
(`ok none`). -/
def getMapResolve (db : List DbMap) (cs2 : Bool) (name : String) :
    Except PyErr (Option DbMap) :=
  if !validMapName name then .error (.mapError "Invalid map name")
  else
    match db.find? (iexactPred cs2 name) with
    | some m => .ok (some m)
    | none =>
        let db_maps := db.filter (icontainsPred cs2 name)
        if db_maps.length > 1 then .error (.ambiguousMap db_maps)
        else .ok db_maps.head?

/-! ## VNL tier lookup (csgo.py lines 50-71 and get_map lines 378-394) -/

/-- `_vnl_tiers_for_map` (csgo.py lines 50-71): HTTP 404 is answered with the
sentinel pair (10, 10); other non-200 statuses and malformed bodies raise. -/
def vnlTiersForMap (r : HttpResult) : Except PyErr (Option Int × Option Int) :=
  match r with
  | .conn => .error (.connection "Couldnt get vnl.kz map tiers")
  | .resp status body =>
      if status = 404 then .ok (some 10, some 10)
      else if status ≠ 200 then .error (.api "Couldnt get vnl.kz map tiers")
      else
        match body with
        | .obj fields =>
            match (((fields.find? (fun p => p.1 == "tpTier")).map
                     Prod.snd).getD .null).isinstInt,
                  (((fields.find? (fun p => p.1 == "proTier")).map
                     Prod.snd).getD .null).isinstInt with
            | some tp_tier, some pro_tier => .ok (some tp_tier, some pro_tier)
            | _, _ =>
                .error (.api "Malformed vnl.kz JSON (tpTier/proTier not an int)")
        | _ => .error (.api "Malformed vnl.kz JSON (not a dict)")

/-- The VNL tier-enrichment step of CSGOAPI.get_map (csgo.py lines 382-392):
when the mode is VNL and the cached map lacks the secondary tier pair,
`_vnl_tiers_for_map` is consulted; any APIError it raises is caught and the
tiers degrade to None. -/
def csgoVnlEnrich (vnl_tier vnl_pro_tier : Option Int) (r : HttpResult) :
    Option Int × Option Int :=
  if vnl_tier = none ∨ vnl_pro_tier = none then
    match vnlTiersForMap r with
    | .ok tiers => tiers
    | .error _ => (none, none)
  else (vnl_tier, vnl_pro_tier)

/-- `_tier_name` (csgo.py lines 182-190): the display label of a numeric tier,
with the 10-step scale for VNL and the 7-step scale otherwise. -/
def csgoTierName (tier : Option Int) (mode : Mode) : String :=
  let t := tier.getD (-1)
  if mode = .VNL then
    if t = 1 then "Very Easy" else if t = 2 then "Easy"
    else if t = 3 then "Medium" else if t = 4 then "Advanced"
    else if t = 5 then "Hard" else if t = 6 then "Very Hard"
    else if t = 7 then "Extreme" else if t = 8 then "Death"
    else if t = 9 then "Unfeasible" else if t = 10 then "Impossible"
    else "Unknown"
  else
    if t = 1 then "Very Easy" else if t = 2 then "Easy"
    else if t = 3 then "Medium" else if t = 4 then "Hard"
    else if t = 5 then "Very Hard" else if t = 6 then "Extreme"
    else if t = 7 then "Death" else "Unknown"

/-! ## Profiles (CSGOAPI.get_profile, csgo.py 469-552;
    CS2API.get_profile, cs2.py 454-502) -/

/-- The aggregate profile (api/kz/base.py `Profile`). -/
structure Profile where
  name : Option String
  mode : Mode
  rank : Rank
  points : Int
  average : Option Int
  url : String
deriving DecidableEq, Repr

/-- `mode.lower()` on the Mode StrEnum value. -/
def modeLower : Mode → String
  | .KZT => "kzt"
  | .SKZ => "skz"
  | .VNL => "vnl"
  | .CKZ => "ckz"
  | .VNL2 => "vnl2"

/-- `_profile_url` (csgo.py lines 192-196). -/
def csgoProfileUrl (steamid64 : Int) (mode : Mode) : String :=
  if mode = .VNL then "https://vnl.kz/#/stats/" ++ toString steamid64
  else "https://kzgo.eu/players/" ++ toString steamid64 ++ "?" ++
    modeLower mode

/-- `_profile_url` (cs2.py lines 206-207). -/
def cs2ProfileUrl (steamid64 : Int) : String :=
  "https://cs2kz.org/profile/" ++ toString steamid64

/-- Python `int()` truncation toward zero on a rational. -/
def ratTrunc (q : ℚ) : Int :=
  if 0 ≤ q then q.floor else q.ceil

/-- CSGOAPI.get_profile (csgo.py lines 469-552), with the player_ranks HTTP
exchange as an explicit argument. `steamName` models `name_for_steamid64`:
some means the Steam lookup succeeded, none means it raised SteamError (the
code catches it and stores None). A non-string `player_name` in the result
row is collapsed to none here; no claim depends on that field. -/
def csgoGetProfile (mode : Mode) (steamid64 : Int) (r : HttpResult)
    (steamName : Option String) : Except PyErr Profile :=
  let player_url := csgoProfileUrl steamid64 mode
  match r with
  | .conn => .error (.connection "Couldnt get global API PBs")
  | .resp status body =>
      if status ≠ 200 then .error (.api "Couldnt get global API PBs")
      else
        match body with
        | .arr results =>
            match results with
            | [] =>
                .ok { name := steamName, url := player_url, mode := mode,
                      rank := .NEW, points := 0, average := some 0 }
            | info :: _ =>
              if !info.isObj then
                .error (.api "Malformed global API ranks (not a list of dicts)")
              else
              match (info.get "points"), (info.get "average") with
              | .ok jpoints, .ok javg =>
                  match jpoints.isinstInt with
                  | none =>
                      .error (.api "Malformed global API ranks (points not an int)")
                  | some points =>
                      match javg.isinstFloat with
                      | none =>
                          .error
                            (.api "Malformed global API ranks (average not a float)")
                      | some average =>
                          .ok { name := (match info.get "player_name" with
                                         | .ok (.str s) => some s
                                         | _ => none),
                                url := player_url, mode := mode,
                                rank := csgoRankForPoints mode points,
                                points := points,
                                average := some (ratTrunc average) }
              | _, _ => .error .attributeError
        | _ => .error (.api "Malformed global API ranks (not a list)")

/-- CS2API.get_profile (cs2.py lines 454-502), with the profile HTTP exchange
as an explicit argument. An HTTP 404 falls back to the Steam name and an
UNKNOWN-rank zero-point profile; a 200 parses `rating`, divides by 10 and
maps through the extended threshold table (zero short-circuits to NEW). -/
def cs2GetProfile (mode : Mode) (steamid64 : Int) (r : HttpResult)
    (steamName : Option String) : Except PyErr Profile :=
  let player_url := cs2ProfileUrl steamid64
  match r with
  | .conn => .error (.connection "Couldnt get global API PBs")
  | .resp status body =>
      if status = 200 then
        match body with
        | .obj _ =>
            match body.get "rating" with
            | .ok jrating =>
                match jrating.isinstFloat with
                | none =>
                    .error (.api "Malformed global API ranks (rating not a float)")
                | some rating =>
                    let points : ℚ := rating / 10
                    .ok { name := (match body.get "name" with
                                   | .ok (.str s) => some s
                                   | _ => none),
                          url := player_url, mode := mode,
                          rank := cs2RankForPoints points,
                          points := ratTrunc points, average := none }
            | .error e => .error e
        | _ => .error (.api "Malformed global API profile (not a dict)")
      else if status = 404 then
        .ok { name := steamName, url := player_url, mode := mode,
              rank := .UNKNOWN, points := 0, average := none }
      else .error (.api "Couldnt get global API PBs")

/-! ## Personal bests (CSGOAPI.get_pb, csgo.py 406-426) -/

/-- A normalized record (api/kz/base.py `PersonalBest`). The elapsed time
(timedelta) is seconds as a rational; the submission timestamp is kept as the
raw `created_on` string (ISO parsing is not modelled, no claim depends on it);
the `map` field (the APIMap the caller passed in, identical on every record
of one call) is omitted. -/
structure PersonalBest where
  id : Int
  steamid64 : Int
  player_name : Option String
  time : ℚ
  teleports : Int
  points : Int
  point_scale : Int
  place : Option Int
  date : String
deriving DecidableEq, Repr

/-- The run-class filter inside CSGOAPI.get_pb (csgo.py lines 416-419):
PRO keeps teleports == 0, TP keeps truthy (nonzero) teleports, ANY keeps
everything. -/
def classFilter (tp_type : RunType) (pbs : List PersonalBest) :
    List PersonalBest :=
  match tp_type with
  | .PRO => pbs.filter (fun pb => pb.teleports == 0)
  | .TP => pbs.filter (fun pb => !(pb.teleports == 0))
  | .ANY => pbs

/-- The best-effort `_place_for_pb` enrichment (csgo.py lines 422-425):
on success the place is assigned, a raised APIError is caught and the place
is left as parsed. -/
def pbWithPlace (placeFor : PersonalBest → Option Int) (pb : PersonalBest) :
    PersonalBest :=
  { pb with place := match placeFor pb with
                     | some p => some p
                     | none => pb.place }

/-- CSGOAPI.get_pb (csgo.py lines 406-426) from the point where the fetched
records are parsed (line 412): empty fetch returns None; otherwise the list
is filtered to the requested run-class, sorted by elapsed time (Python
list.sort is stable; modelled with the stable List.mergeSort) and indexed at
0 - which raises IndexError when the filter removed everything. `placeFor`
models `_place_for_pb` as in `pbWithPlace`. -/
def csgoGetPb (placeFor : PersonalBest → Option Int)
    (pbs0 : List PersonalBest) (tp_type : RunType) :
    Except PyErr (Option PersonalBest) :=
  if pbs0.isEmpty then .ok none
  else
    let pbs := (classFilter tp_type pbs0).mergeSort
      (fun a b => a.time ≤ b.time)
    match pbs with
    | [] => .error .indexError
    | pb :: _ => .ok (some (pbWithPlace placeFor pb))

/-! ## Catalog refresh (refresh_csgo_db_maps, csgo.py 89-180;
    refresh_cs2_db_maps, cs2.py 44-193)

    The page fetch itself (and its early returns on fetch failure) is outside
    the per-entry loop; the loop over the downloaded page is embedded, with
    the database, the already-downloaded vnl tier table and the thumbnail
    host as explicit arguments. -/

/-- The primary-key probe `map_id=i, is_cs2=cs2` on a cache row. -/
def keyPred (i : Int) (cs2 : Bool) (m : DbMap) : Bool :=
  m.map_id == i && m.is_cs2 == cs2

/-- `Map.get(map_id=i, is_cs2=cs2)` on the cache: the row with that key. -/
def dbGet (db : List DbMap) (i : Int) (cs2 : Bool) : Option DbMap :=
  db.find? (keyPred i cs2)

/-- `db_map.delete()`: remove the fetched row. -/
def dbErase (db : List DbMap) (i : Int) (cs2 : Bool) : List DbMap :=
  db.eraseP (keyPred i cs2)

/-- `db_map.save()` after mutating a fetched row: replace the row with that
primary key. -/
def dbReplace (db : List DbMap) (i : Int) (cs2 : Bool) (m2 : DbMap) :
    List DbMap :=
  db.map (fun m => if keyPred i cs2 m then m2 else m)

/-- What one page entry makes the refresh loop do: skip it (malformed field,
logged), delete the cache row (not approved/validated), or upsert incoming
field values. -/
inductive EntryAct (F : Type) where
  | skip
  | delete (map_id : Int)
  | upsert (map_id : Int) (inc : F)
deriving DecidableEq, Repr

/-- The refresh loop state: the cache plus the new/updated/deleted tallies. -/
structure RefreshSt where
  db : List DbMap
  new : Nat
  updated : Nat
  deleted : Nat
deriving DecidableEq, Repr

/-- One iteration of the refresh loop body, shared by both families
(csgo.py 134-178, cs2.py 81-191): classify the entry via `act`, then delete
(counting only when the row existed), insert a fresh row, or run the
field-by-field update and save only when something changed. -/
def runEntry {F : Type} (cs2 : Bool) (create : Int → F → DbMap)
    (update : DbMap → F → DbMap × Bool)
    (act : JSON → Except PyErr (EntryAct F)) (st : RefreshSt) (e : JSON) :
    Except PyErr RefreshSt :=
  match act e with
  | .error err => .error err
  | .ok .skip => .ok st
  | .ok (.delete i) =>
      match dbGet st.db i cs2 with
      | none => .ok st
      | some _ =>
          .ok { st with db := dbErase st.db i cs2,
                        deleted := st.deleted + 1 }
  | .ok (.upsert i inc) =>
      match dbGet st.db i cs2 with
      | none =>
          .ok { st with db := st.db ++ [create i inc], new := st.new + 1 }
      | some row =>
          let r := update row inc
          if r.2 then
            .ok { st with db := dbReplace st.db i cs2 r.1,
                          updated := st.updated + 1 }
          else .ok st

/-- The whole per-page loop: fold `runEntry` over the page entries, starting
from zero tallies; a raised exception aborts the page. -/
def runPage {F : Type} (cs2 : Bool) (create : Int → F → DbMap)
    (update : DbMap → F → DbMap × Bool)
    (act : JSON → Except PyErr (EntryAct F)) (db0 : List DbMap)
    (page : List JSON) : Except PyErr RefreshSt :=
  page.foldlM (runEntry cs2 create update act) ⟨db0, 0, 0, 0⟩

/-- The incoming field values of one valid approved CSGO page entry. -/
structure CsgoInc where
  name : String
  tier : Int
  vnl_tier : Int
  vnl_pro_tier : Int
deriving DecidableEq, Repr

/-- `vnl_tiers.get(map_id, (10, 10))` (csgo.py line 144) over the downloaded
vnl.kz tier table. -/
def vnlLookup (vnl : List (Int × Int × Int)) (i : Int) : Int × Int :=
  ((vnl.find? (fun p => p.1 == i)).map Prod.snd).getD (10, 10)

/-- Entry classification of the refresh_csgo_db_maps loop body
(csgo.py lines 114-144): a non-int id, non-str name, non-int difficulty or
non-bool validated field is logged and skipped; a non-validated entry is a
delete; otherwise an upsert with the entry tier and the vnl table pair.
A non-dict entry raises AttributeError at the first `.get`. -/
def csgoEntryAct (vnl : List (Int × Int × Int)) (e : JSON) :
    Except PyErr (EntryAct CsgoInc) := do
  let jid ← e.get "id"
  match jid.isinstInt with
  | none => pure .skip
  | some map_id =>
      let jname ← e.get "name"
      match jname.isinstStr with
      | none => pure .skip
      | some name =>
          let jtier ← e.get "difficulty"
          match jtier.isinstInt with
          | none => pure .skip
          | some tier =>
              let jval ← e.get "validated"
              match jval.isinstBool with
              | none => pure .skip
              | some validated =>
                  if !validated then pure (.delete map_id)
                  else
                    let tiers := vnlLookup vnl map_id
                    pure (.upsert map_id ⟨name, tier, tiers.1, tiers.2⟩)

/-- Row creation for a first-seen CSGO map (csgo.py lines 148-153):
`pro_tier` is set to the same `difficulty` value as `tier`; the thumbnail is
fetched best-effort. -/
def csgoCreate (thumb : String → Option (List Nat)) (map_id : Int)
    (inc : CsgoInc) : DbMap :=
  { map_id := map_id, is_cs2 := false, name := inc.name,
    tier := some inc.tier, pro_tier := some inc.tier,
    vnl_tier := some inc.vnl_tier, vnl_pro_tier := some inc.vnl_pro_tier,
    main_course := none, thumbnail := thumb inc.name }

/-- Row update for an existing CSGO map (csgo.py lines 154-178): a changed
difficulty overwrites both tier and pro_tier; vnl tiers and thumbnail are
overwritten only when the incoming value differs and is non-null (the vnl
pair from `vnlLookup` is always non-null, so that conjunct is vacuous and
omitted); a null cached thumbnail triggers a fresh best-effort fetch. -/
def csgoUpdate (thumb : String → Option (List Nat)) (db_map : DbMap)
    (inc : CsgoInc) : DbMap × Bool :=
  let thumbnail := match db_map.thumbnail with
                   | none => thumb inc.name
                   | some t => some t
  let c1 := db_map.tier ≠ some inc.tier
  let m1 := if c1 then
              { db_map with tier := some inc.tier, pro_tier := some inc.tier }
            else db_map
  let c2 := m1.vnl_tier ≠ some inc.vnl_tier
  let m2 := if c2 then { m1 with vnl_tier := some inc.vnl_tier } else m1
  let c3 := m2.vnl_pro_tier ≠ some inc.vnl_pro_tier
  let m3 := if c3 then { m2 with vnl_pro_tier := some inc.vnl_pro_tier }
            else m2
  let c4 := m3.thumbnail ≠ thumbnail ∧ thumbnail ≠ none
  let m4 := if c4 then { m3 with thumbnail := thumbnail } else m3
  (m4, c1 ∨ c2 ∨ c3 ∨ c4)

/-- The per-entry portion of refresh_csgo_db_maps (csgo.py lines 111-180). -/
def refresh_csgo_db_maps (vnl : List (Int × Int × Int))
    (thumb : String → Option (List Nat)) (db0 : List DbMap)
    (page : List JSON) : Except PyErr RefreshSt :=
  runPage false (csgoCreate thumb) (csgoUpdate thumb) (csgoEntryAct vnl)
    db0 page

/-- The incoming field values of one valid approved CS2 page entry. -/
structure Cs2Inc where
  name : String
  main_course : Option String
  tier : Option Int
  pro_tier : Option Int
  vnl_tier : Option Int
  vnl_pro_tier : Option Int
deriving DecidableEq, Repr

/-- `_tier_num` (cs2.py lines 34-37): tier-code string to number. -/
def tierNum (code : String) : Option Int :=
  if code == "very-easy" then some 1
  else if code == "easy" then some 2
  else if code == "medium" then some 3
  else if code == "advanced" then some 4
  else if code == "hard" then some 5
  else if code == "very-hard" then some 6
  else if code == "extreme" then some 7
  else if code == "death" then some 8
  else if code == "unfeasible" then some 9
  else if code == "impossible" then some 10
  else none

/-- Entry classification of the refresh_cs2_db_maps loop body
(cs2.py lines 70-147). Malformed fields are logged and skipped, with one
exception taken verbatim from the source: a non-string course name RAISES
APIError (cs2.py lines 107-110) instead of skipping. A non-approved state is
a delete (checked before the name and courses fields); tiers come from the
first course filters, a missing filter leaving them null and an unknown
tier code mapping to 10 (`_tier_num(...) or 10`). -/
def cs2EntryAct (e : JSON) : Except PyErr (EntryAct Cs2Inc) := do
  let jid ← e.get "id"
  match jid.isinstInt with
  | none => pure .skip
  | some map_id =>
  let jstate ← e.get "state"
  match jstate.isinstStr with
  | none => pure .skip
  | some state =>
  if state ≠ "approved" then pure (.delete map_id)
  else do
  let jname ← e.get "name"
  match jname.isinstStr with
  | none => pure .skip
  | some name =>
  let jcourses ← e.get "courses"
  match jcourses with
  | .arr [] => pure (.upsert map_id ⟨name, none, none, none, none, none⟩)
  | .arr (course_info :: _) =>
      if !course_info.isObj then pure .skip
      else do
      let jcname ← course_info.get "name"
      match jcname.isinstStr with
      | none =>
          throw (.api "Malformed global API map response (course name not a str)")
      | some course_name =>
      let jfilters ← course_info.get "filters"
      if !jfilters.isObj then pure .skip
      else do
      let jclassic ← jfilters.get "classic"
      if !jclassic.isObj && !jclassic.isNull then pure .skip
      else do
      let classicTiers : Option (Option Int × Option Int) ←
        match jclassic with
        | .null => pure (some (none, none))
        | _ => do
            let jnub ← jclassic.get "nub_tier"
            let jpro ← jclassic.get "pro_tier"
            match jnub.isinstStr, jpro.isinstStr with
            | some nub, some pro =>
                pure (some (some ((tierNum nub).getD 10),
                            some ((tierNum pro).getD 10)))
            | _, _ => pure none
      match classicTiers with
      | none => pure .skip
      | some (tier, pro_tier) =>
      let jvanilla ← jfilters.get "vanilla"
      if !jvanilla.isObj && !jvanilla.isNull then pure .skip
      else do
      let vanillaTiers : Option (Option Int × Option Int) ←
        match jvanilla with
        | .null => pure (some (none, none))
        | _ => do
            let jnub ← jvanilla.get "nub_tier"
            let jpro ← jvanilla.get "pro_tier"
            match jnub.isinstStr, jpro.isinstStr with
            | some nub, some pro =>
                pure (some (some ((tierNum nub).getD 10),
                            some ((tierNum pro).getD 10)))
            | _, _ => pure none
      match vanillaTiers with
      | none => pure .skip
      | some (vnl_tier, vnl_pro_tier) =>
          pure (.upsert map_id
            ⟨name, some course_name, tier, pro_tier, vnl_tier, vnl_pro_tier⟩)
  | _ => pure .skip

/-- Row creation for a first-seen CS2 map (cs2.py lines 152-157). -/
def cs2Create (thumb : String → Option (List Nat)) (map_id : Int)
    (inc : Cs2Inc) : DbMap :=
  { map_id := map_id, is_cs2 := true, name := inc.name, tier := inc.tier,
    pro_tier := inc.pro_tier, vnl_tier := inc.vnl_tier,
    vnl_pro_tier := inc.vnl_pro_tier, main_course := inc.main_course,
    thumbnail := thumb inc.name }

/-- Row update for an existing CS2 map (cs2.py lines 159-191): every field is
overwritten only when the incoming value differs and is non-null; a null
cached thumbnail triggers a fresh best-effort fetch. The source checks the
fields one after the other on the mutating object, but no check reads a
field an earlier check writes, so the checks are stated against the incoming
row and the overwrites applied at once. -/
def cs2Update (thumb : String → Option (List Nat)) (db_map : DbMap)
    (inc : Cs2Inc) : DbMap × Bool :=
  let thumbnail := match db_map.thumbnail with
                   | none => thumb inc.name
                   | some t => some t
  let c0 := db_map.main_course ≠ inc.main_course ∧ inc.main_course ≠ none
  let c1 := db_map.tier ≠ inc.tier ∧ inc.tier ≠ none
  let c2 := db_map.pro_tier ≠ inc.pro_tier ∧ inc.pro_tier ≠ none
  let c3 := db_map.vnl_tier ≠ inc.vnl_tier ∧ inc.vnl_tier ≠ none
  let c4 := db_map.vnl_pro_tier ≠ inc.vnl_pro_tier ∧ inc.vnl_pro_tier ≠ none
  let c5 := db_map.thumbnail ≠ thumbnail ∧ thumbnail ≠ none
  ({ db_map with
     main_course := if c0 then inc.main_course else db_map.main_course,
     tier := if c1 then inc.tier else db_map.tier,
     pro_tier := if c2 then inc.pro_tier else db_map.pro_tier,
     vnl_tier := if c3 then inc.vnl_tier else db_map.vnl_tier,
     vnl_pro_tier := if c4 then inc.vnl_pro_tier else db_map.vnl_pro_tier,
     thumbnail := if c5 then thumbnail else db_map.thumbnail },
   c0 ∨ c1 ∨ c2 ∨ c3 ∨ c4 ∨ c5)

/-- The per-entry portion of refresh_cs2_db_maps (cs2.py lines 67-193). -/
def refresh_cs2_db_maps (thumb : String → Option (List Nat))
    (db0 : List DbMap) (page : List JSON) : Except PyErr RefreshSt :=
  runPage true (cs2Create thumb) (cs2Update thumb) cs2EntryAct db0 page

/-- The map id an entry classification touches, if any. -/
def actId {F : Type} (act : JSON → Except PyErr (EntryAct F)) (e : JSON) :
    Option Int :=
  match act e with
  | .ok (.delete i) => some i
  | .ok (.upsert i _) => some i
  | _ => none

/-- The primary keys of the cache rows, pairwise distinct in a real
database. -/
def keysNodup (db : List DbMap) : Prop :=
  (db.map (fun m => (m.map_id, m.is_cs2))).Nodup

/-- Settledness of one classified entry with respect to the cache: a skipped
entry trivially; a delete has no matching row left; an upsert has a matching
row that a second update pass would leave unchanged; a raising entry is
never settled. -/
def actSettled {F : Type} (cs2 : Bool) (update : DbMap → F → DbMap × Bool)
    (db : List DbMap) : Except PyErr (EntryAct F) → Prop
  | .error _ => False
  | .ok .skip => True
  | .ok (.delete i) => dbGet db i cs2 = none
  | .ok (.upsert i inc) =>
      ∃ row, dbGet db i cs2 = some row ∧ update row inc = (row, false)

/-- After a completed refresh run, each page entry is settled with respect to
the cache. -/
def settled {F : Type} (cs2 : Bool) (update : DbMap → F → DbMap × Bool)
    (act : JSON → Except PyErr (EntryAct F)) (db : List DbMap) (e : JSON) :
    Prop :=
  actSettled cs2 update db (act e)

/-! ## Concrete example values used by witnesses and counterexamples -/

/-- A cached legacy-family map row named kz_longjump. -/
def ljRow : DbMap :=
  ⟨1, false, "kz_longjump", some 2, some 2, some 3, some 3, none, none⟩

/-- A cached legacy-family map row named kz_longjump2. -/
def lj2Row : DbMap :=
  ⟨2, false, "kz_longjump2", some 4, some 4, some 5, some 5, none, none⟩

/-- A cached legacy-family map row named kz_map1. -/
def kzMap1Row : DbMap :=
  ⟨5, false, "kz_map1", some 1, some 1, none, none, none, none⟩

/-- A fetched record with a teleport (TP) run of 32.5 seconds (65/2, written
as a raw rational so it evaluates in the kernel), 800 points. -/
def recTP : PersonalBest :=
  ⟨101, 76561198000000007, some "holder", ⟨65, 2, by decide, by decide⟩, 4,
   800, 1000, none, "2024-01-01T00:00:00"⟩

/-- A fetched record with a pro (no-teleport) run of 31.0 seconds,
950 points. -/
def recPRO : PersonalBest :=
  ⟨102, 76561198000000007, some "holder", 31, 0, 950, 1000, none,
   "2024-01-02T00:00:00"⟩

/-- A well-formed validated CSGO catalog page entry. -/
def csgoEntryA : JSON :=
  .obj [("id", .int 1), ("name", .str "kz_alpha"), ("difficulty", .int 4),
        ("validated", .bool true)]

/-- A malformed CSGO catalog page entry: the difficulty field is missing. -/
def csgoBadEntry : JSON :=
  .obj [("id", .int 3), ("name", .str "kz_broken"),
        ("validated", .bool true)]

/-- The cache row the refresh creates for `csgoEntryA` (no vnl table entry,
thumbnail fetch failing). -/
def csgoRowA : DbMap :=
  ⟨1, false, "kz_alpha", some 4, some 4, some 10, some 10, none, none⟩

/-- A well-formed approved CS2 catalog page entry with no courses. -/
def cs2GoodEntry : JSON :=
  .obj [("id", .int 7), ("state", .str "approved"), ("name", .str "kz_beta"),
        ("courses", .arr [])]

/-- The cache row the refresh creates for `cs2GoodEntry`. -/
def cs2GoodRow : DbMap :=
  ⟨7, true, "kz_beta", none, none, none, none, none, none⟩

/-- A malformed approved CS2 catalog page entry: the first course carries a
non-string name, the one field the refresh loop raises on. -/
def cs2BadCourseEntry : JSON :=
  .obj [("id", .int 8), ("state", .str "approved"),
        ("name", .str "kz_gamma"),
        ("courses", .arr [.obj [("name", .int 42)]])]

/-- A well-formed approved CS2 catalog page entry with one course carrying a
classic filter and a null vanilla filter. -/
def cs2FullEntry : JSON :=
  .obj [("id", .int 9), ("state", .str "approved"), ("name", .str "kz_delta"),
        ("courses", .arr
          [.obj [("name", .str "Main"),
                 ("filters", .obj
                   [("classic", .obj [("nub_tier", .str "easy"),
                                      ("pro_tier", .str "hard")]),
                    ("vanilla", .null)])]])]

/-- The cache row the refresh creates for `cs2FullEntry`. -/
def cs2RowD : DbMap :=
  ⟨9, true, "kz_delta", some 2, some 5, none, none, some "Main", none⟩

/-! # Theorems -/

/-- When the first threshold pair the scan meets is found by `find?`, the
Python threshold loop returns its label, whatever the initial rank value. -/
theorem rankLoop_eq_of_find {α : Type} [LinearOrder α]
    (l : List (α × Rank)) (points : α) (t : α) (r : Rank) :
    ∀ r0 : Rank, l.find? (fun p => decide (p.1 ≤ points)) = some (t, r) →
      rankLoop l points r0 = r := by
  induction l with
  | nil => intro r0 h; simp at h
  | cons hd tl ih =>
      intro r0 h
      obtain ⟨th, rh⟩ := hd
      by_cases hle : th ≤ points
      · rw [List.find?_cons_of_pos _ (by simpa using hle)] at h
        simp only [Option.some_inj, Prod.mk.injEq] at h
        simp [rankLoop, hle, h.2]
      · rw [List.find?_cons_of_neg _ (by simpa using hle)] at h
        simp only [rankLoop, if_neg hle]
        exact ih rh h

/-- C5: for every legacy mode and positive total, the tier returned by the
profile rank computation is the label of the first (highest) entry of the
descending threshold table whose threshold the total meets or exceeds; the
same holds for the extended family; the boundary is inclusive, so a total of
exactly 500 yields Beginner. -/
theorem profile_tier_first_threshold (mode : Mode) (points : Int) (q : ℚ)
    (hmode : mode = .KZT ∨ mode = .SKZ ∨ mode = .VNL)
    (hp : 0 < points) (hq : 0 < q) :
    (∃ t r, (csgoThresholds mode).find?
        (fun p => decide (p.1 ≤ points)) = some (t, r) ∧
        csgoRankForPoints mode points = r) ∧
    (∃ t r, cs2Thresholds.find? (fun p => decide (p.1 ≤ q)) = some (t, r) ∧
        cs2RankForPoints q = r) ∧
    csgoRankForPoints mode 500 = Rank.BEGINNER := by
  refine ⟨?_, ?_, ?_⟩
  · have hmem : ((1 : Int), Rank.BEGINNER_MINUS) ∈ csgoThresholds mode := by
      have : ((1 : Int), Rank.BEGINNER_MINUS) ∈ csgoThresholdsTail := by decide
      exact List.mem_append_right _ this
    have hsome : ((csgoThresholds mode).find?
        (fun p => decide (p.1 ≤ points))).isSome := by
      rw [List.find?_isSome]
      exact ⟨_, hmem, by simpa using hp⟩
    obtain ⟨⟨t, r⟩, hfind⟩ := Option.isSome_iff_exists.mp hsome
    exact ⟨t, r, hfind, rankLoop_eq_of_find _ _ _ _ _ hfind⟩
  · have hmem : ((0 : ℚ), Rank.BEGINNER) ∈ cs2Thresholds := by
      simp [cs2Thresholds]
    have hsome : (cs2Thresholds.find? (fun p => decide (p.1 ≤ q))).isSome := by
      rw [List.find?_isSome]
      exact ⟨_, hmem, by simpa using hq.le⟩
    obtain ⟨⟨t, r⟩, hfind⟩ := Option.isSome_iff_exists.mp hsome
    refine ⟨t, r, hfind, ?_⟩
    rw [cs2RankForPoints, if_neg hq.ne']
    exact rankLoop_eq_of_find _ _ _ _ _ hfind
  · rcases hmode with h | h | h <;> subst h <;> decide

/-- Witness for `profile_tier_first_threshold` at mode KZT, 500 integer
points and 5000 rational points. -/
theorem profile_tier_first_threshold_witness :
    ((Mode.KZT = .KZT ∨ Mode.KZT = .SKZ ∨ Mode.KZT = .VNL) ∧
      (0 : Int) < 500 ∧ (0 : ℚ) < 5000) ∧
    ((∃ t r, (csgoThresholds .KZT).find?
        (fun p => decide (p.1 ≤ (500 : Int))) = some (t, r) ∧
        csgoRankForPoints .KZT 500 = r) ∧
    (∃ t r, cs2Thresholds.find?
        (fun p => decide (p.1 ≤ (5000 : ℚ))) = some (t, r) ∧
        cs2RankForPoints 5000 = r) ∧
    csgoRankForPoints .KZT 500 = Rank.BEGINNER) :=
  ⟨⟨Or.inl rfl, by decide, by decide⟩,
   profile_tier_first_threshold .KZT 500 5000 (Or.inl rfl) (by decide)
     (by decide)⟩

/-- C3: the legacy-family rank computation maps zero total points to
Beginner-, not to the sentinel New: the `rank = Rank.NEW` default before the
threshold loop is overwritten by the loop variable, and no threshold is met,
so the label of the last table entry is returned. The extended family
short-circuits zero to New as the claim states. The final conjunct runs the
whole get_profile on a ranks response carrying zero points. -/
theorem csgo_zero_points_rank :
    csgoRankForPoints .KZT 0 = .BEGINNER_MINUS ∧
    csgoRankForPoints .SKZ 0 = .BEGINNER_MINUS ∧
    csgoRankForPoints .VNL 0 = .BEGINNER_MINUS ∧
    (Rank.BEGINNER_MINUS == Rank.NEW) = false ∧
    Rank.BEGINNER_MINUS.label = "Beginner-" ∧
    cs2RankForPoints 0 = .NEW ∧
    (csgoGetProfile .KZT 76561198000000007
        (.resp 200 (.arr [.obj [("player_name", .str "holder"),
                                ("points", .int 0),
                                ("average", .float 0)]]))
        none).map Profile.rank = .ok .BEGINNER_MINUS := by
  decide

/-- C9: the validation regex is written `[A-za-z0-9_]+`; the `A-z` range also
admits the six punctuation characters between Z and a (code points 91-96),
so a name containing a caret passes validation and proceeds to the cache
lookup (`ok none` falls through toward remote I/O) instead of failing with
the invalid-input error; names of letters, digits and underscores pass, and
a name with a character outside the A-z range (a space) does fail up
front. -/
theorem map_name_validation_regex :
    validMapName "kz^map" = true ∧
    specNameCharOk (Char.ofNat 94) = false ∧
    nameCharOk (Char.ofNat 94) = true ∧
    validMapName "kz_map1" = true ∧
    validMapName "kz map" = false ∧
    getMapResolve [ljRow] false "kz^map" = .ok none ∧
    getMapResolve [ljRow] false "kz map" =
      .error (.mapError "Invalid map name") := by
  decide

unseal List.merge List.mergeSort in
/-- C10: get_pb on a nonempty, well-formed fetch in which no record matches
the requested run-class raises IndexError (`pbs[0]` on the emptied filtered
list) instead of completing with None: the only TP record is filtered away
by a PRO request. A matching request on the same fetch works. -/
theorem get_pb_filter_empty_indexerror :
    (recTP.teleports == 0) = false ∧
    csgoGetPb (fun _ => none) [recTP] .PRO = .error .indexError ∧
    csgoGetPb (fun _ => none) [recTP] .TP = .ok (some recTP) := by
  decide

/-- C7: when the secondary (vnl.kz) tier service answers the per-map tier
lookup with HTTP 404 and the cached map lacks the secondary tier pair, the
lookup succeeds with the sentinel pair (10, 10) rather than an error, the
enrichment step of get_map adopts both sentinel tiers, and tier 10 carries
the hardest label. -/
theorem vnl_404_tier_sentinel (body : JSON) (vt vpt : Option Int)
    (h : vt = none ∨ vpt = none) :
    vnlTiersForMap (.resp 404 body) = .ok (some 10, some 10) ∧
    csgoVnlEnrich vt vpt (.resp 404 body) = (some 10, some 10) ∧
    csgoTierName (some 10) .VNL = "Impossible" := by
  have h404 : vnlTiersForMap (.resp 404 body) = .ok (some 10, some 10) := by
    simp [vnlTiersForMap]
  refine ⟨h404, ?_, by decide⟩
  rw [csgoVnlEnrich, if_pos h, h404]

/-- Witness for `vnl_404_tier_sentinel` with a missing cached tier pair and a
null 404 body. -/
theorem vnl_404_tier_sentinel_witness :
    ((none : Option Int) = none ∨ (some 3 : Option Int) = none) ∧
    (vnlTiersForMap (.resp 404 .null) = .ok (some 10, some 10) ∧
      csgoVnlEnrich none (some 3) (.resp 404 .null) = (some 10, some 10) ∧
      csgoTierName (some 10) .VNL = "Impossible") :=
  ⟨Or.inl rfl, vnl_404_tier_sentinel .null none (some 3) (Or.inl rfl)⟩

/-- C4 counterexample: in the extended family the no-records fallback (the
profile endpoint answers HTTP 404) returns a zero-point profile whose rank is
Unknown, not the claimed New. -/
theorem cs2_profile_404_rank_unknown :
    cs2GetProfile .CKZ 76561198000000042 (.resp 404 .null) (some "holder") =
      .ok { name := some "holder", url := cs2ProfileUrl 76561198000000042,
            mode := .CKZ, rank := .UNKNOWN, points := 0, average := none } ∧
    (Rank.UNKNOWN == Rank.NEW) = false ∧
    Rank.UNKNOWN.label = "Unknown" := by
  decide

/-- C4 amended: a holder with no records gets a zero-point profile whose
display name falls back to the identity resolver result (absent when that
lookup failed); the tier label is New in the legacy family (empty ranks
list) and Unknown in the extended family (HTTP 404). -/
theorem profile_no_records_fallback (modeA modeB : Mode) (sidA sidB : Int)
    (snA snB : Option String) (body : JSON)
    (hmodeA : modeA = .KZT ∨ modeA = .SKZ ∨ modeA = .VNL)
    (hmodeB : modeB = .CKZ ∨ modeB = .VNL2) :
    csgoGetProfile modeA sidA (.resp 200 (.arr [])) snA =
      .ok { name := snA, url := csgoProfileUrl sidA modeA, mode := modeA,
            rank := .NEW, points := 0, average := some 0 } ∧
    cs2GetProfile modeB sidB (.resp 404 body) snB =
      .ok { name := snB, url := cs2ProfileUrl sidB, mode := modeB,
            rank := .UNKNOWN, points := 0, average := none } := by
  constructor
  · simp [csgoGetProfile]
  · simp [cs2GetProfile]

/-- Witness for `profile_no_records_fallback` at KZT and CKZ with a failed
identity lookup on one side. -/
theorem profile_no_records_fallback_witness :
    ((Mode.KZT = .KZT ∨ Mode.KZT = .SKZ ∨ Mode.KZT = .VNL) ∧
      (Mode.CKZ = .CKZ ∨ Mode.CKZ = .VNL2)) ∧
    (csgoGetProfile .KZT 7656119800001 (.resp 200 (.arr [])) none =
      .ok { name := none, url := csgoProfileUrl 7656119800001 .KZT,
            mode := .KZT, rank := .NEW, points := 0, average := some 0 } ∧
    cs2GetProfile .CKZ 7656119800002 (.resp 404 .null) (some "holder") =
      .ok { name := some "holder", url := cs2ProfileUrl 7656119800002,
            mode := .CKZ, rank := .UNKNOWN, points := 0, average := none }) :=
  ⟨⟨Or.inl rfl, Or.inl rfl⟩,
   profile_no_records_fallback .KZT .CKZ 7656119800001 7656119800002 none
     (some "holder") .null (Or.inl rfl) (Or.inl rfl)⟩

/-- C6: whenever the fetch is nonempty and at least one record matches the
requested run-class, get_pb returns (place-enriched) a record that matches
the run-class and whose elapsed time is minimal among all matching
records. -/
theorem get_pb_returns_min_time (placeFor : PersonalBest → Option Int)
    (pbs0 : List PersonalBest) (tp_type : RunType)
    (h0 : pbs0 ≠ []) (hne : classFilter tp_type pbs0 ≠ []) :
    ∃ pb ∈ classFilter tp_type pbs0,
      csgoGetPb placeFor pbs0 tp_type =
        .ok (some (pbWithPlace placeFor pb)) ∧
      ∀ q ∈ classFilter tp_type pbs0, pb.time ≤ q.time := by
  have h0' : pbs0.isEmpty = false := by
    simpa [List.isEmpty_iff] using h0
  have hperm := List.mergeSort_perm (classFilter tp_type pbs0)
    (fun a b => decide (a.time ≤ b.time))
  have hsorted := @List.sorted_mergeSort PersonalBest
    (fun a b => decide (a.time ≤ b.time))
    (fun a b c hab hbc => by
      simp only [decide_eq_true_eq] at hab hbc ⊢
      exact le_trans hab hbc)
    (fun a b => by simpa using le_total a.time b.time)
    (classFilter tp_type pbs0)
  rcases hcases : (classFilter tp_type pbs0).mergeSort
      (fun a b => decide (a.time ≤ b.time)) with _ | ⟨pb, rest⟩
  · rw [hcases] at hperm
    exact absurd hperm.symm.eq_nil hne
  · refine ⟨pb, ?_, ?_, ?_⟩
    · have hmem : pb ∈ pb :: rest := List.mem_cons_self pb rest
      rw [← hcases] at hmem
      exact List.mem_mergeSort.mp hmem
    · simp only [csgoGetPb, h0', Bool.false_eq_true, if_false, hcases]
    · intro q hq
      have hq2 : q ∈ pb :: rest := by
        rw [← hcases]
        exact List.mem_mergeSort.mpr hq
      rw [hcases] at hsorted
      rcases List.mem_cons.mp hq2 with h | h
      · exact h ▸ le_refl _
      · have := (List.pairwise_cons.mp hsorted).1 q h
        simpa using this

unseal List.merge List.mergeSort in
/-- Witness for `get_pb_returns_min_time`, which is also Scenario D: two
records of one holder on one map, 32.5 seconds with teleports (800 points)
and 31.0 seconds pro (950 points); get_pb with run-class ANY returns the
31.0-second record, regardless of the points. -/
theorem get_pb_returns_min_time_witness :
    (([recTP, recPRO] : List PersonalBest) ≠ [] ∧
      classFilter .ANY [recTP, recPRO] ≠ []) ∧
    (∃ pb ∈ classFilter .ANY [recTP, recPRO],
      csgoGetPb (fun _ => none) [recTP, recPRO] .ANY =
        .ok (some (pbWithPlace (fun _ => none) pb)) ∧
      ∀ q ∈ classFilter .ANY [recTP, recPRO], pb.time ≤ q.time) ∧
    csgoGetPb (fun _ => none) [recTP, recPRO] .ANY = .ok (some recPRO) :=
  ⟨⟨by decide, by decide⟩,
   get_pb_returns_min_time (fun _ => none) [recTP, recPRO] .ANY
     (by decide) (by decide),
   by decide⟩

/-- C2: map-name resolution order on the local cache. With valid names:
resolution is invariant under casing (same lower-cased name, same outcome);
an exact case-insensitive match resolves to that row; with no exact match,
the case-insensitive substring filter either fails with the ambiguous-map
error carrying the full candidate list (more than one hit), resolves (one
hit), or falls through to the remote by-name lookup (`ok none`, zero
hits). -/
theorem get_map_resolution_order (db : List DbMap) (cs2 : Bool)
    (n1 n2 : String)
    (hv1 : validMapName n1 = true) (hv2 : validMapName n2 = true)
    (hcase : lowerStr n1 = lowerStr n2) :
    getMapResolve db cs2 n1 = getMapResolve db cs2 n2 ∧
    (∀ m, db.find? (iexactPred cs2 n1) = some m →
        getMapResolve db cs2 n1 = .ok (some m)) ∧
    (db.find? (iexactPred cs2 n1) = none →
        ((db.filter (icontainsPred cs2 n1)).length > 1 →
            getMapResolve db cs2 n1 =
              .error (.ambiguousMap (db.filter (icontainsPred cs2 n1)))) ∧
        (∀ m, db.filter (icontainsPred cs2 n1) = [m] →
            getMapResolve db cs2 n1 = .ok (some m)) ∧
        (db.filter (icontainsPred cs2 n1) = [] →
            getMapResolve db cs2 n1 = .ok none)) := by
  have hex : iexactPred cs2 n1 = iexactPred cs2 n2 := by
    funext m; simp [iexactPred, hcase]
  have hco : icontainsPred cs2 n1 = icontainsPred cs2 n2 := by
    funext m; simp [icontainsPred, hcase]
  refine ⟨?_, ?_, ?_⟩
  · simp only [getMapResolve, hv1, hv2, hex, hco]
  · intro m hm
    simp only [getMapResolve, hv1, Bool.not_true, Bool.false_eq_true,
      if_false, hm]
  · intro hnone
    refine ⟨?_, ?_, ?_⟩
    · intro hlen
      simp only [getMapResolve, hv1, Bool.not_true, Bool.false_eq_true,
        if_false, hnone, if_pos hlen]
    · intro m hm
      simp only [getMapResolve, hv1, Bool.not_true, Bool.false_eq_true,
        if_false, hnone, hm]
      simp
    · intro hm
      simp only [getMapResolve, hv1, Bool.not_true, Bool.false_eq_true,
        if_false, hnone, hm]
      simp

/-- Witness for `get_map_resolution_order`: Scenario B (a cache with
kz_longjump and kz_longjump2; resolving longjump in any casing is ambiguous
with both candidates) and Scenario A (resolving KZ_MAP1 finds the cached
kz_map1 row). -/
theorem get_map_resolution_order_witness :
    getMapResolve [ljRow, lj2Row] false "LongJump" =
      .error (.ambiguousMap [ljRow, lj2Row]) ∧
    getMapResolve [ljRow, lj2Row] false "LongJump" =
      getMapResolve [ljRow, lj2Row] false "longjump" ∧
    getMapResolve [kzMap1Row] false "KZ_MAP1" = .ok (some kzMap1Row) := by
  have h := get_map_resolution_order [ljRow, lj2Row] false "LongJump"
    "longjump" (by decide) (by decide) (by decide)
  have h2 := (h.2.2 (by decide)).1 (by decide)
  have h3 := get_map_resolution_order [kzMap1Row] false "KZ_MAP1" "kz_map1"
    (by decide) (by decide) (by decide)
  have h4 := h3.2.1 kzMap1Row (by decide)
  refine ⟨?_, h.1, h4⟩
  rw [h2]
  decide

/-- C1: refresh must never raise because of one malformed entry. The csgo
loop does skip its malformed entry (missing difficulty) and still processes
the valid sibling, but the cs2 loop raises APIError on an approved entry
whose first course name is not a string, aborting the whole page; the same
page without that entry completes. -/
theorem refresh_single_malformed_entry :
    refresh_csgo_db_maps [] (fun _ => none) [] [csgoBadEntry, csgoEntryA] =
      .ok ⟨[csgoRowA], 1, 0, 0⟩ ∧
    refresh_cs2_db_maps (fun _ => none) []
        [cs2GoodEntry, cs2BadCourseEntry] =
      .error
        (.api "Malformed global API map response (course name not a str)") ∧
    refresh_cs2_db_maps (fun _ => none) [] [cs2GoodEntry] =
      .ok ⟨[cs2GoodRow], 1, 0, 0⟩ := by
  decide

/-! ## Lemmas about the cache primitives, toward refresh idempotence (C8) -/

/-- The key probe in propositional form. -/
theorem keyPred_iff (i : Int) (cs2 : Bool) (m : DbMap) :
    keyPred i cs2 m = true ↔ m.map_id = i ∧ m.is_cs2 = cs2 := by
  simp [keyPred]

/-- A row found by `dbGet` satisfies the key probe. -/
theorem dbGet_some_key {db : List DbMap} {i : Int} {cs2 : Bool} {row : DbMap}
    (h : dbGet db i cs2 = some row) : keyPred i cs2 row = true :=
  List.find?_some h

/-- `dbGet` on a cons. -/
theorem dbGet_cons (m : DbMap) (db : List DbMap) (i : Int) (cs2 : Bool) :
    dbGet (m :: db) i cs2 =
      if keyPred i cs2 m then some m else dbGet db i cs2 := by
  by_cases h : keyPred i cs2 m
  · simp [dbGet, List.find?_cons_of_pos _ h, h]
  · simp [dbGet, List.find?_cons_of_neg _ h, h]

/-- `dbErase` on a cons. -/
theorem dbErase_cons (m : DbMap) (db : List DbMap) (i : Int) (cs2 : Bool) :
    dbErase (m :: db) i cs2 =
      if keyPred i cs2 m then db else m :: dbErase db i cs2 := by
  by_cases h : keyPred i cs2 m <;>
    simp [dbErase, List.eraseP_cons, h]

/-- `dbReplace` on a cons. -/
theorem dbReplace_cons (m : DbMap) (db : List DbMap) (i : Int) (cs2 : Bool)
    (m2 : DbMap) :
    dbReplace (m :: db) i cs2 m2 =
      (if keyPred i cs2 m then m2 else m) :: dbReplace db i cs2 m2 := by
  simp [dbReplace]

/-- If no row carries the key, `dbGet` finds nothing. -/
theorem dbGet_eq_none_of_not_mem {db : List DbMap} {i : Int} {cs2 : Bool}
    (h : (i, cs2) ∉ db.map (fun m => (m.map_id, m.is_cs2))) :
    dbGet db i cs2 = none := by
  rw [dbGet, List.find?_eq_none]
  intro m hm hpm
  rw [keyPred_iff] at hpm
  exact h (List.mem_map.mpr ⟨m, hm, by simp [hpm.1, hpm.2]⟩)

/-- If `dbGet` finds nothing, no row carries the key. -/
theorem not_mem_keys_of_dbGet_none {db : List DbMap} {i : Int} {cs2 : Bool}
    (h : dbGet db i cs2 = none) :
    (i, cs2) ∉ db.map (fun m => (m.map_id, m.is_cs2)) := by
  rw [dbGet, List.find?_eq_none] at h
  intro hmem
  obtain ⟨m, hm, hkey⟩ := List.mem_map.mp hmem
  exact h m hm (by rw [keyPred_iff]; exact ⟨congrArg Prod.fst hkey,
    congrArg Prod.snd hkey⟩)

/-- Erasing one key leaves lookups of a different key untouched. -/
theorem dbGet_erase_ne (db : List DbMap) (i j : Int) (cs2 : Bool)
    (hij : i ≠ j) : dbGet (dbErase db j cs2) i cs2 = dbGet db i cs2 := by
  induction db with
  | nil => rfl
  | cons m rest ih =>
      rw [dbErase_cons]
      by_cases hpj : keyPred j cs2 m
      · rw [if_pos hpj, dbGet_cons, if_neg]
        intro hpi
        exact hij (((keyPred_iff i cs2 m).mp hpi).1.symm.trans
          ((keyPred_iff j cs2 m).mp hpj).1)
      · rw [if_neg hpj, dbGet_cons, dbGet_cons, ih]

/-- With distinct keys, erasing a key removes it from lookup entirely. -/
theorem dbGet_erase_self (db : List DbMap) (j : Int) (cs2 : Bool)
    (hnd : keysNodup db) : dbGet (dbErase db j cs2) j cs2 = none := by
  induction db with
  | nil => rfl
  | cons m rest ih =>
      rw [keysNodup, List.map_cons, List.nodup_cons] at hnd
      rw [dbErase_cons]
      by_cases hpj : keyPred j cs2 m
      · rw [if_pos hpj]
        apply dbGet_eq_none_of_not_mem
        have hkey : (m.map_id, m.is_cs2) = (j, cs2) := by
          have := (keyPred_iff j cs2 m).mp hpj
          simp [this.1, this.2]
        rw [← hkey]
        exact hnd.1
      · rw [if_neg hpj, dbGet_cons, if_neg hpj]
        exact ih hnd.2

/-- Appending a row of a different key leaves lookups untouched. -/
theorem dbGet_append_of_ne (db : List DbMap) (i : Int) (cs2 : Bool)
    (m : DbMap) (h : keyPred i cs2 m = false) :
    dbGet (db ++ [m]) i cs2 = dbGet db i cs2 := by
  induction db with
  | nil =>
      simp [dbGet, List.find?, h]
  | cons m0 rest ih =>
      rw [List.cons_append, dbGet_cons, dbGet_cons, ih]

/-- Appending a row with the missing key makes lookup find it. -/
theorem dbGet_append_self (db : List DbMap) (i : Int) (cs2 : Bool)
    (m : DbMap) (hnone : dbGet db i cs2 = none) (h : keyPred i cs2 m = true) :
    dbGet (db ++ [m]) i cs2 = some m := by
  induction db with
  | nil => simp [dbGet, List.find?, h]
  | cons m0 rest ih =>
      rw [dbGet_cons] at hnone
      by_cases hp0 : keyPred i cs2 m0
      · rw [if_pos hp0] at hnone; exact absurd hnone (by simp)
      · rw [if_neg hp0] at hnone
        rw [List.cons_append, dbGet_cons, if_neg hp0]
        exact ih hnone

/-- Replacing the row of a different key leaves lookups untouched, as long
as the replacement keeps its key. -/
theorem dbGet_replace_ne (db : List DbMap) (i j : Int) (cs2 : Bool)
    (m2 : DbMap) (hij : i ≠ j) (hm2 : keyPred j cs2 m2 = true) :
    dbGet (dbReplace db j cs2 m2) i cs2 = dbGet db i cs2 := by
  have hm2i : keyPred i cs2 m2 = false := by
    rw [Bool.eq_false_iff]
    intro hpi
    exact hij (((keyPred_iff i cs2 m2).mp hpi).1.symm.trans
      ((keyPred_iff j cs2 m2).mp hm2).1)
  induction db with
  | nil => rfl
  | cons m rest ih =>
      rw [dbReplace_cons]
      by_cases hpj : keyPred j cs2 m
      · have hpi : keyPred i cs2 m = false := by
          rw [Bool.eq_false_iff]
          intro hpi
          exact hij (((keyPred_iff i cs2 m).mp hpi).1.symm.trans
            ((keyPred_iff j cs2 m).mp hpj).1)
        rw [if_pos hpj, dbGet_cons, dbGet_cons, if_neg (by simp [hm2i]),
          if_neg (by simp [hpi]), ih]
      · rw [if_neg hpj, dbGet_cons, dbGet_cons, ih]

/-- Replacing a found row makes lookup return the replacement. -/
theorem dbGet_replace_self (db : List DbMap) (j : Int) (cs2 : Bool)
    (row m2 : DbMap) (hfound : dbGet db j cs2 = some row)
    (hm2 : keyPred j cs2 m2 = true) :
    dbGet (dbReplace db j cs2 m2) j cs2 = some m2 := by
  induction db with
  | nil => exact absurd hfound (by simp [dbGet, List.find?])
  | cons m rest ih =>
      rw [dbGet_cons] at hfound
      rw [dbReplace_cons]
      by_cases hpj : keyPred j cs2 m
      · rw [if_pos hpj, dbGet_cons, if_pos hm2]
      · rw [if_neg hpj] at hfound
        rw [if_neg hpj, dbGet_cons, if_neg hpj]
        exact ih hfound

/-- Erasing preserves the distinct-keys invariant. -/
theorem keysNodup_erase {db : List DbMap} (j : Int) (cs2 : Bool)
    (hnd : keysNodup db) : keysNodup (dbErase db j cs2) :=
  List.Nodup.sublist (List.Sublist.map _ (List.eraseP_sublist db)) hnd

/-- Appending a row whose key was absent preserves the invariant. -/
theorem keysNodup_append {db : List DbMap} {i : Int} {cs2 : Bool}
    {m : DbMap} (hnone : dbGet db i cs2 = none) (h : keyPred i cs2 m = true)
    (hnd : keysNodup db) : keysNodup (db ++ [m]) := by
  rw [keysNodup, List.map_append, List.map_singleton]
  rw [List.nodup_append]
  refine ⟨hnd, List.nodup_singleton _, ?_⟩
  intro k hk hk1
  rw [List.mem_singleton] at hk1
  subst hk1
  have hkey : (m.map_id, m.is_cs2) = (i, cs2) := by
    have := (keyPred_iff i cs2 m).mp h
    simp [this.1, this.2]
  rw [hkey] at hk
  exact not_mem_keys_of_dbGet_none hnone hk

/-- Replacing a row by one with the same key leaves the key list, hence the
invariant, untouched. -/
theorem keys_dbReplace (db : List DbMap) (j : Int) (cs2 : Bool) (m2 : DbMap)
    (hm2 : keyPred j cs2 m2 = true) :
    (dbReplace db j cs2 m2).map (fun m => (m.map_id, m.is_cs2)) =
      db.map (fun m => (m.map_id, m.is_cs2)) := by
  induction db with
  | nil => rfl
  | cons m rest ih =>
      rw [dbReplace_cons, List.map_cons, List.map_cons, ih]
      by_cases hpj : keyPred j cs2 m
      · rw [if_pos hpj]
        have h1 := (keyPred_iff j cs2 m2).mp hm2
        have h2 := (keyPred_iff j cs2 m).mp hpj
        simp [h1.1, h1.2, h2.1, h2.2]
      · rw [if_neg hpj]

section RefreshIdem

variable {F : Type} {cs2 : Bool} {create : Int → F → DbMap}
  {update : DbMap → F → DbMap × Bool}
  {act : JSON → Except PyErr (EntryAct F)}

/-- Bind on `Except` after a success. -/
theorem exceptBind_ok {ε α β : Type} (a : α) (f : α → Except ε β) :
    (Except.ok a >>= f : Except ε β) = f a := rfl

/-- Bind on `Except` after a failure. -/
theorem exceptBind_err {ε α β : Type} (err : ε) (f : α → Except ε β) :
    (Except.error err >>= f : Except ε β) = .error err := rfl

/-- One refresh step keeps the distinct-keys invariant of the cache. -/
theorem runEntry_keysNodup
    (hck : ∀ i inc, keyPred i cs2 (create i inc) = true)
    (huk : ∀ row inc, (update row inc).1.map_id = row.map_id ∧
      (update row inc).1.is_cs2 = row.is_cs2)
    {st st2 : RefreshSt} {e : JSON}
    (hstep : runEntry cs2 create update act st e = .ok st2)
    (hnd : keysNodup st.db) : keysNodup st2.db := by
  unfold runEntry at hstep
  cases hact : act e with
  | error err => simp only [hact] at hstep; cases hstep
  | ok a =>
      simp only [hact] at hstep
      cases a with
      | skip =>
          cases hstep
          exact hnd
      | delete i =>
          cases hget : dbGet st.db i cs2 with
          | none => simp only [hget] at hstep; cases hstep; exact hnd
          | some row =>
              simp only [hget] at hstep; cases hstep
              exact keysNodup_erase i cs2 hnd
      | upsert i inc =>
          cases hget : dbGet st.db i cs2 with
          | none =>
              simp only [hget] at hstep; cases hstep
              exact keysNodup_append hget (hck i inc) hnd
          | some row =>
              simp only [hget] at hstep
              by_cases hch : (update row inc).2
              · rw [if_pos hch] at hstep; cases hstep
                have hrow := dbGet_some_key hget
                have hm2 : keyPred i cs2 (update row inc).1 = true := by
                  rw [keyPred_iff] at hrow ⊢
                  exact ⟨(huk row inc).1.trans hrow.1,
                    (huk row inc).2.trans hrow.2⟩
                rw [keysNodup, keys_dbReplace _ _ _ _ hm2]
                exact hnd
              · rw [if_neg hch] at hstep; cases hstep
                exact hnd

/-- A refresh step on a settled entry changes nothing. -/
theorem runEntry_of_settled {st : RefreshSt} {e : JSON}
    (hset : settled cs2 update act st.db e) :
    runEntry cs2 create update act st e = .ok st := by
  rw [settled] at hset
  unfold runEntry
  cases hact : act e with
  | error err => rw [hact] at hset; exact absurd hset (by simp [actSettled])
  | ok a =>
      rw [hact] at hset
      cases a with
      | skip => rfl
      | delete i =>
          rw [actSettled] at hset
          simp only [hset]
      | upsert i inc =>
          rw [actSettled] at hset
          obtain ⟨row, hget, hupd⟩ := hset
          simp only [hget]
          have h2 : (update row inc).2 = false := by rw [hupd]
          rw [if_neg (by simp [h2])]

/-- A refresh step on an entry with a different key (or none) does not move
the lookup of this key. -/
theorem runEntry_dbGet_other
    (hck : ∀ i inc, keyPred i cs2 (create i inc) = true)
    (huk : ∀ row inc, (update row inc).1.map_id = row.map_id ∧
      (update row inc).1.is_cs2 = row.is_cs2)
    {st st2 : RefreshSt} {e2 : JSON} {i : Int}
    (hstep : runEntry cs2 create update act st e2 = .ok st2)
    (hdiff : actId act e2 ≠ some i) :
    dbGet st2.db i cs2 = dbGet st.db i cs2 := by
  unfold runEntry at hstep
  cases hact : act e2 with
  | error err => simp only [hact] at hstep; cases hstep
  | ok a =>
      simp only [hact] at hstep
      cases a with
      | skip => cases hstep; rfl
      | delete j =>
          have hij : i ≠ j := by
            intro h
            exact hdiff (by rw [actId, hact, h])
          cases hget : dbGet st.db j cs2 with
          | none => simp only [hget] at hstep; cases hstep; rfl
          | some row =>
              simp only [hget] at hstep; cases hstep
              exact dbGet_erase_ne _ _ _ _ hij
      | upsert j inc =>
          have hij : i ≠ j := by
            intro h
            exact hdiff (by rw [actId, hact, h])
          cases hget : dbGet st.db j cs2 with
          | none =>
              simp only [hget] at hstep; cases hstep
              apply dbGet_append_of_ne
              rw [Bool.eq_false_iff]
              intro hpi
              exact hij (((keyPred_iff i cs2 _).mp hpi).1.symm.trans
                (((keyPred_iff j cs2 _).mp (hck j inc)).1))
          | some row =>
              simp only [hget] at hstep
              by_cases hch : (update row inc).2
              · rw [if_pos hch] at hstep; cases hstep
                have hrow := dbGet_some_key hget
                have hm2 : keyPred j cs2 (update row inc).1 = true := by
                  rw [keyPred_iff] at hrow ⊢
                  exact ⟨(huk row inc).1.trans hrow.1,
                    (huk row inc).2.trans hrow.2⟩
                exact dbGet_replace_ne _ _ _ _ _ hij hm2
              · rw [if_neg hch] at hstep; cases hstep; rfl

/-- A refresh step on an entry with a different key preserves settledness of
this entry. -/
theorem runEntry_settled_frame
    (hck : ∀ i inc, keyPred i cs2 (create i inc) = true)
    (huk : ∀ row inc, (update row inc).1.map_id = row.map_id ∧
      (update row inc).1.is_cs2 = row.is_cs2)
    {st st2 : RefreshSt} {e e2 : JSON}
    (hstep : runEntry cs2 create update act st e2 = .ok st2)
    (hset : settled cs2 update act st.db e)
    (hdiff : ∀ i, actId act e = some i → actId act e2 ≠ some i) :
    settled cs2 update act st2.db e := by
  rw [settled] at hset ⊢
  cases hact : act e with
  | error err =>
      rw [hact] at hset
      exact absurd hset (by simp [actSettled])
  | ok a =>
      rw [hact] at hset
      cases a with
      | skip => simp only [actSettled]
      | delete i =>
          simp only [actSettled] at hset ⊢
          rw [runEntry_dbGet_other hck huk hstep
            (hdiff i (by rw [actId, hact]))]
          exact hset
      | upsert i inc =>
          simp only [actSettled] at hset ⊢
          simp only [runEntry_dbGet_other hck huk hstep
            (hdiff i (by rw [actId, hact]))]
          exact hset

/-- After its own step, an entry is settled (given that row updates are
key-preserving and idempotent). -/
theorem runEntry_settles_self
    (hck : ∀ i inc, keyPred i cs2 (create i inc) = true)
    (huk : ∀ row inc, (update row inc).1.map_id = row.map_id ∧
      (update row inc).1.is_cs2 = row.is_cs2)
    (hcs : ∀ i inc, update (create i inc) inc = (create i inc, false))
    (hus : ∀ row inc, update (update row inc).1 inc =
      ((update row inc).1, false))
    (hu0 : ∀ row inc, (update row inc).2 = false → (update row inc).1 = row)
    {st st2 : RefreshSt} {e : JSON}
    (hstep : runEntry cs2 create update act st e = .ok st2)
    (hnd : keysNodup st.db) :
    settled cs2 update act st2.db e := by
  unfold runEntry at hstep
  rw [settled]
  cases hact : act e with
  | error err => simp only [hact] at hstep; cases hstep
  | ok a =>
      simp only [hact] at hstep
      cases a with
      | skip => simp only [actSettled]
      | delete i =>
          simp only [actSettled]
          cases hget : dbGet st.db i cs2 with
          | none => simp only [hget] at hstep; cases hstep; exact hget
          | some row =>
              simp only [hget] at hstep; cases hstep
              exact dbGet_erase_self _ _ _ hnd
      | upsert i inc =>
          simp only [actSettled]
          cases hget : dbGet st.db i cs2 with
          | none =>
              simp only [hget] at hstep; cases hstep
              exact ⟨create i inc,
                dbGet_append_self _ _ _ _ hget (hck i inc), hcs i inc⟩
          | some row =>
              simp only [hget] at hstep
              by_cases hch : (update row inc).2
              · rw [if_pos hch] at hstep; cases hstep
                have hrow := dbGet_some_key hget
                have hm2 : keyPred i cs2 (update row inc).1 = true := by
                  rw [keyPred_iff] at hrow ⊢
                  exact ⟨(huk row inc).1.trans hrow.1,
                    (huk row inc).2.trans hrow.2⟩
                exact ⟨(update row inc).1,
                  dbGet_replace_self _ _ _ _ _ hget hm2, hus row inc⟩
              · rw [if_neg hch] at hstep; cases hstep
                refine ⟨row, hget, ?_⟩
                have h1 := hu0 row inc (Bool.eq_false_iff.mpr hch)
                have h2 : (update row inc).2 = false :=
                  Bool.eq_false_iff.mpr hch
                calc update row inc
                    = ((update row inc).1, (update row inc).2) := rfl
                  _ = (row, false) := by rw [h1, h2]

/-- Destructure a successful `foldlM` step over `Except`. -/
theorem foldlM_ok_cons {α β ε : Type} (f : β → α → Except ε β) (b : β)
    (a : α) (l : List α) (b2 : β)
    (h : (a :: l).foldlM f b = .ok b2) :
    ∃ b1, f b a = .ok b1 ∧ l.foldlM f b1 = .ok b2 := by
  rw [List.foldlM_cons] at h
  cases hfa : f b a with
  | error err =>
      rw [hfa, exceptBind_err] at h
      exact absurd h (by simp)
  | ok b1 =>
      rw [hfa, exceptBind_ok] at h
      exact ⟨b1, rfl, h⟩

/-- A fold over settled entries is the identity on the state. -/
theorem foldlM_of_settled (page : List JSON) (st : RefreshSt)
    (h : ∀ e ∈ page, settled cs2 update act st.db e) :
    page.foldlM (runEntry cs2 create update act) st = .ok st := by
  induction page with
  | nil => rfl
  | cons e t ih =>
      rw [List.foldlM_cons, runEntry_of_settled (h e (List.mem_cons_self _ _)),
        exceptBind_ok]
      exact ih (fun e2 he2 => h e2 (List.mem_cons_of_mem _ he2))

/-- Settledness of an entry survives a fold over entries with other keys. -/
theorem foldlM_settled_frame
    (hck : ∀ i inc, keyPred i cs2 (create i inc) = true)
    (huk : ∀ row inc, (update row inc).1.map_id = row.map_id ∧
      (update row inc).1.is_cs2 = row.is_cs2)
    (t : List JSON) :
    ∀ (st st2 : RefreshSt) (e : JSON),
      t.foldlM (runEntry cs2 create update act) st = .ok st2 →
      settled cs2 update act st.db e →
      (∀ i, actId act e = some i → i ∉ t.filterMap (actId act)) →
      settled cs2 update act st2.db e := by
  induction t with
  | nil =>
      intro st st2 e h hset _
      cases h
      exact hset
  | cons e2 t2 ih =>
      intro st st2 e h hset hdiff
      obtain ⟨s1, h1, h2⟩ := foldlM_ok_cons _ _ _ _ _ h
      refine ih s1 st2 e h2 ?_ ?_
      · refine runEntry_settled_frame hck huk h1 hset ?_
        intro i hi hact2
        exact hdiff i hi (List.mem_filterMap.mpr
          ⟨e2, List.mem_cons_self _ _, hact2⟩)
      · intro i hi hmem
        obtain ⟨e3, he3, hact3⟩ := List.mem_filterMap.mp hmem
        exact hdiff i hi (List.mem_filterMap.mpr
          ⟨e3, List.mem_cons_of_mem _ he3, hact3⟩)

/-- After a completed refresh run over a page of pairwise-distinct catalog
ids, the key invariant still holds and every page entry is settled. -/
theorem foldlM_settles
    (hck : ∀ i inc, keyPred i cs2 (create i inc) = true)
    (huk : ∀ row inc, (update row inc).1.map_id = row.map_id ∧
      (update row inc).1.is_cs2 = row.is_cs2)
    (hcs : ∀ i inc, update (create i inc) inc = (create i inc, false))
    (hus : ∀ row inc, update (update row inc).1 inc =
      ((update row inc).1, false))
    (hu0 : ∀ row inc, (update row inc).2 = false → (update row inc).1 = row)
    (page : List JSON) :
    ∀ (st st2 : RefreshSt),
      keysNodup st.db →
      (page.filterMap (actId act)).Nodup →
      page.foldlM (runEntry cs2 create update act) st = .ok st2 →
      keysNodup st2.db ∧
        ∀ e ∈ page, settled cs2 update act st2.db e := by
  induction page with
  | nil =>
      intro st st2 hnd _ h
      cases h
      exact ⟨hnd, by simp⟩
  | cons e t ih =>
      intro st st2 hnd hids h
      obtain ⟨s1, h1, h2⟩ := foldlM_ok_cons _ _ _ _ _ h
      have hnd1 : keysNodup s1.db := runEntry_keysNodup hck huk h1 hnd
      have hids_t : (t.filterMap (actId act)).Nodup := by
        rw [List.filterMap_cons] at hids
        cases hai : actId act e with
        | none => rwa [hai] at hids
        | some i =>
            rw [hai] at hids
            exact (List.nodup_cons.mp hids).2
      obtain ⟨hnd2, hsettled_t⟩ := ih s1 st2 hnd1 hids_t h2
      refine ⟨hnd2, ?_⟩
      intro e0 he0
      rcases List.mem_cons.mp he0 with rfl | he0t
      · have hs1 : settled cs2 update act s1.db e0 :=
          runEntry_settles_self hck huk hcs hus hu0 h1 hnd
        refine foldlM_settled_frame hck huk t s1 st2 e0 h2 hs1 ?_
        intro i hi
        rw [List.filterMap_cons, hi] at hids
        exact (List.nodup_cons.mp hids).1
      · exact hsettled_t e0 he0t

/-- A second refresh run from the state a first run produced changes nothing
and tallies zero, provided the page ids are distinct and the key invariant
held at the start. -/
theorem runPage_idem
    (hck : ∀ i inc, keyPred i cs2 (create i inc) = true)
    (huk : ∀ row inc, (update row inc).1.map_id = row.map_id ∧
      (update row inc).1.is_cs2 = row.is_cs2)
    (hcs : ∀ i inc, update (create i inc) inc = (create i inc, false))
    (hus : ∀ row inc, update (update row inc).1 inc =
      ((update row inc).1, false))
    (hu0 : ∀ row inc, (update row inc).2 = false → (update row inc).1 = row)
    (db0 : List DbMap) (page : List JSON) (st1 : RefreshSt)
    (hnd : keysNodup db0)
    (hids : (page.filterMap (actId act)).Nodup)
    (h1 : runPage cs2 create update act db0 page = .ok st1) :
    runPage cs2 create update act st1.db page = .ok ⟨st1.db, 0, 0, 0⟩ := by
  obtain ⟨_, hsettled⟩ := foldlM_settles hck huk hcs hus hu0 page
    ⟨db0, 0, 0, 0⟩ st1 hnd hids h1
  exact foldlM_of_settled page ⟨st1.db, 0, 0, 0⟩ hsettled

end RefreshIdem

/-- A created CSGO row carries the probed key. -/
theorem csgoCreate_key (thumb : String → Option (List Nat)) :
    ∀ (i : Int) (inc : CsgoInc),
      keyPred i false (csgoCreate thumb i inc) = true := by
  intro i inc
  simp [keyPred, csgoCreate]

/-- The CSGO row update never touches the primary key. -/
theorem csgoUpdate_key (thumb : String → Option (List Nat)) :
    ∀ (row : DbMap) (inc : CsgoInc),
      (csgoUpdate thumb row inc).1.map_id = row.map_id ∧
      (csgoUpdate thumb row inc).1.is_cs2 = row.is_cs2 := by
  intro row inc
  simp only [csgoUpdate]
  split_ifs <;> simp

/-- After a CSGO row update the tier field holds the incoming difficulty. -/
theorem csgoUpdate_tier (thumb : String → Option (List Nat)) (row : DbMap)
    (inc : CsgoInc) : (csgoUpdate thumb row inc).1.tier = some inc.tier := by
  simp only [csgoUpdate]
  split_ifs <;> simp_all

/-- After a CSGO row update the vnl tier holds the incoming value. -/
theorem csgoUpdate_vnl_tier (thumb : String → Option (List Nat))
    (row : DbMap) (inc : CsgoInc) :
    (csgoUpdate thumb row inc).1.vnl_tier = some inc.vnl_tier := by
  simp only [csgoUpdate]
  split_ifs <;> simp_all

/-- After a CSGO row update the vnl pro tier holds the incoming value. -/
theorem csgoUpdate_vnl_pro_tier (thumb : String → Option (List Nat))
    (row : DbMap) (inc : CsgoInc) :
    (csgoUpdate thumb row inc).1.vnl_pro_tier = some inc.vnl_pro_tier := by
  simp only [csgoUpdate]
  split_ifs <;> simp_all

/-- After a CSGO row update the thumbnail is the cached one, or the freshly
fetched one when the cache held none. -/
theorem csgoUpdate_thumbnail (thumb : String → Option (List Nat))
    (row : DbMap) (inc : CsgoInc) :
    (csgoUpdate thumb row inc).1.thumbnail =
      (match row.thumbnail with
       | none => thumb inc.name
       | some t => some t) := by
  rcases hth : row.thumbnail with _ | t
  · rcases htn : thumb inc.name with _ | b <;>
      · simp only [csgoUpdate, hth, htn]
        split_ifs <;> simp_all
  · simp only [csgoUpdate, hth]
    split_ifs <;> simp_all

/-- A CSGO row already carrying the incoming values (and lacking a thumbnail
only when the host has none) is updated to itself with no change
reported. -/
theorem csgoUpdate_of_synced (thumb : String → Option (List Nat))
    (row : DbMap) (inc : CsgoInc)
    (h1 : row.tier = some inc.tier) (h2 : row.vnl_tier = some inc.vnl_tier)
    (h3 : row.vnl_pro_tier = some inc.vnl_pro_tier)
    (h4 : row.thumbnail = none → thumb inc.name = none) :
    csgoUpdate thumb row inc = (row, false) := by
  obtain ⟨mid, c, nm, tr, ptr, vt, vpt, mc, th⟩ := row
  dsimp only at h1 h2 h3 h4
  subst h1
  subst h2
  subst h3
  rcases th with _ | t
  · simp [csgoUpdate, h4 rfl]
  · simp [csgoUpdate]

/-- Updating a freshly created CSGO row changes nothing. -/
theorem csgoUpdate_create (thumb : String → Option (List Nat)) :
    ∀ (i : Int) (inc : CsgoInc),
      csgoUpdate thumb (csgoCreate thumb i inc) inc =
        (csgoCreate thumb i inc, false) := by
  intro i inc
  exact csgoUpdate_of_synced thumb _ inc rfl rfl rfl (fun h => h)

/-- The CSGO row update is idempotent. -/
theorem csgoUpdate_idem (thumb : String → Option (List Nat)) :
    ∀ (row : DbMap) (inc : CsgoInc),
      csgoUpdate thumb (csgoUpdate thumb row inc).1 inc =
        ((csgoUpdate thumb row inc).1, false) := by
  intro row inc
  refine csgoUpdate_of_synced thumb _ inc (csgoUpdate_tier thumb row inc)
    (csgoUpdate_vnl_tier thumb row inc)
    (csgoUpdate_vnl_pro_tier thumb row inc) ?_
  rw [csgoUpdate_thumbnail thumb row inc]
  rcases hth : row.thumbnail with _ | t
  · exact fun h => h
  · simp

/-- A CSGO row update that reports no change leaves the row unchanged. -/
theorem csgoUpdate_unchanged (thumb : String → Option (List Nat)) :
    ∀ (row : DbMap) (inc : CsgoInc),
      (csgoUpdate thumb row inc).2 = false →
      (csgoUpdate thumb row inc).1 = row := by
  intro row inc h
  rcases hth : row.thumbnail with _ | t
  · simp only [csgoUpdate, hth] at h ⊢
    split_ifs at h ⊢ <;> simp_all
  · simp only [csgoUpdate, hth] at h ⊢
    split_ifs at h ⊢ <;> simp_all

/-- A created CS2 row carries the probed key. -/
theorem cs2Create_key (thumb : String → Option (List Nat)) :
    ∀ (i : Int) (inc : Cs2Inc),
      keyPred i true (cs2Create thumb i inc) = true := by
  intro i inc
  simp [keyPred, cs2Create]

/-- The CS2 row update never touches the primary key. -/
theorem cs2Update_key (thumb : String → Option (List Nat)) :
    ∀ (row : DbMap) (inc : Cs2Inc),
      (cs2Update thumb row inc).1.map_id = row.map_id ∧
      (cs2Update thumb row inc).1.is_cs2 = row.is_cs2 := by
  intro row inc
  simp [cs2Update]

/-- After a CS2 row update, every non-null incoming field has been adopted
and the thumbnail is the cached one, or the freshly fetched one when the
cache held none. -/
theorem cs2Update_fields (thumb : String → Option (List Nat)) (row : DbMap)
    (inc : Cs2Inc) :
    (inc.main_course ≠ none →
      (cs2Update thumb row inc).1.main_course = inc.main_course) ∧
    (inc.tier ≠ none → (cs2Update thumb row inc).1.tier = inc.tier) ∧
    (inc.pro_tier ≠ none →
      (cs2Update thumb row inc).1.pro_tier = inc.pro_tier) ∧
    (inc.vnl_tier ≠ none →
      (cs2Update thumb row inc).1.vnl_tier = inc.vnl_tier) ∧
    (inc.vnl_pro_tier ≠ none →
      (cs2Update thumb row inc).1.vnl_pro_tier = inc.vnl_pro_tier) ∧
    ((cs2Update thumb row inc).1.thumbnail =
      (match row.thumbnail with
       | none => thumb inc.name
       | some t => some t)) := by
  refine ⟨?_, ?_, ?_, ?_, ?_, ?_⟩
  · intro h
    simp only [cs2Update]
    split_ifs with hc <;> simp_all
  · intro h
    simp only [cs2Update]
    split_ifs with hc <;> simp_all
  · intro h
    simp only [cs2Update]
    split_ifs with hc <;> simp_all
  · intro h
    simp only [cs2Update]
    split_ifs with hc <;> simp_all
  · intro h
    simp only [cs2Update]
    split_ifs with hc <;> simp_all
  · rcases hth : row.thumbnail with _ | t
    · rcases htn : thumb inc.name with _ | b <;>
        · simp only [cs2Update, hth, htn]
          split_ifs <;> simp_all
    · simp only [cs2Update, hth]
      split_ifs <;> simp_all

/-- A CS2 row already carrying every non-null incoming value (and lacking a
thumbnail only when the host has none) is updated to itself with no change
reported. -/
theorem cs2Update_of_synced (thumb : String → Option (List Nat))
    (row : DbMap) (inc : Cs2Inc)
    (h0 : inc.main_course ≠ none → row.main_course = inc.main_course)
    (h1 : inc.tier ≠ none → row.tier = inc.tier)
    (h2 : inc.pro_tier ≠ none → row.pro_tier = inc.pro_tier)
    (h3 : inc.vnl_tier ≠ none → row.vnl_tier = inc.vnl_tier)
    (h4 : inc.vnl_pro_tier ≠ none → row.vnl_pro_tier = inc.vnl_pro_tier)
    (h5 : row.thumbnail = none → thumb inc.name = none) :
    cs2Update thumb row inc = (row, false) := by
  have hc0 : ¬(row.main_course ≠ inc.main_course ∧ inc.main_course ≠ none) := by
    rcases hmc : inc.main_course with _ | x
    · simp
    · simp [h0 (by rw [hmc]; exact Option.some_ne_none x), hmc]
  have hc1 : ¬(row.tier ≠ inc.tier ∧ inc.tier ≠ none) := by
    rcases hx : inc.tier with _ | x
    · simp
    · simp [h1 (by rw [hx]; exact Option.some_ne_none x), hx]
  have hc2 : ¬(row.pro_tier ≠ inc.pro_tier ∧ inc.pro_tier ≠ none) := by
    rcases hx : inc.pro_tier with _ | x
    · simp
    · simp [h2 (by rw [hx]; exact Option.some_ne_none x), hx]
  have hc3 : ¬(row.vnl_tier ≠ inc.vnl_tier ∧ inc.vnl_tier ≠ none) := by
    rcases hx : inc.vnl_tier with _ | x
    · simp
    · simp [h3 (by rw [hx]; exact Option.some_ne_none x), hx]
  have hc4 : ¬(row.vnl_pro_tier ≠ inc.vnl_pro_tier ∧
      inc.vnl_pro_tier ≠ none) := by
    rcases hx : inc.vnl_pro_tier with _ | x
    · simp
    · simp [h4 (by rw [hx]; exact Option.some_ne_none x), hx]
  rcases hth : row.thumbnail with _ | t
  · have h5' := h5 hth
    simp only [cs2Update, hth, h5', if_neg hc0, if_neg hc1, if_neg hc2,
      if_neg hc3, if_neg hc4]
    simp [hc0, hc1, hc2, hc3, hc4]
    rw [← hth]
  · simp only [cs2Update, hth, if_neg hc0, if_neg hc1, if_neg hc2,
      if_neg hc3, if_neg hc4]
    simp [hc0, hc1, hc2, hc3, hc4]
    rw [← hth]

/-- Updating a freshly created CS2 row changes nothing. -/
theorem cs2Update_create (thumb : String → Option (List Nat)) :
    ∀ (i : Int) (inc : Cs2Inc),
      cs2Update thumb (cs2Create thumb i inc) inc =
        (cs2Create thumb i inc, false) := by
  intro i inc
  exact cs2Update_of_synced thumb _ inc (fun _ => rfl) (fun _ => rfl)
    (fun _ => rfl) (fun _ => rfl) (fun _ => rfl) (fun h => h)

/-- The CS2 row update is idempotent. -/
theorem cs2Update_idem (thumb : String → Option (List Nat)) :
    ∀ (row : DbMap) (inc : Cs2Inc),
      cs2Update thumb (cs2Update thumb row inc).1 inc =
        ((cs2Update thumb row inc).1, false) := by
  intro row inc
  obtain ⟨f0, f1, f2, f3, f4, f5⟩ := cs2Update_fields thumb row inc
  refine cs2Update_of_synced thumb _ inc
    (fun h => (f0 h).trans rfl) (fun h => f1 h) (fun h => f2 h)
    (fun h => f3 h) (fun h => f4 h) ?_
  rw [f5]
  rcases hth : row.thumbnail with _ | t
  · exact fun h => h
  · simp

/-- A CS2 row update that reports no change leaves the row unchanged. -/
theorem cs2Update_unchanged (thumb : String → Option (List Nat)) :
    ∀ (row : DbMap) (inc : Cs2Inc),
      (cs2Update thumb row inc).2 = false →
      (cs2Update thumb row inc).1 = row := by
  intro row inc h
  simp only [cs2Update, decide_eq_false_iff_not, not_or] at h
  obtain ⟨h0, h1, h2, h3, h4, h5⟩ := h
  simp only [cs2Update, if_neg h0, if_neg h1, if_neg h2, if_neg h3,
    if_neg h4, if_neg h5]

/-- C8: catalog refresh is idempotent. For both families, if a refresh run
over a page of pairwise-distinct catalog ids completes from a cache whose
keys are distinct, a second run over the same page from the resulting cache
(with the upstream, the vnl tier table and the thumbnail host unchanged)
leaves the cache untouched and tallies zero new, updated and deleted - in
particular updated_count is 0 - because a cached field is only overwritten
when the incoming value is non-null and differs. -/
theorem refresh_idempotent
    (vnl : List (Int × Int × Int))
    (thumbA thumbB : String → Option (List Nat))
    (dbA dbB : List DbMap) (pageA pageB : List JSON)
    (stA stB : RefreshSt)
    (hA0 : keysNodup dbA)
    (hA1 : (pageA.filterMap (actId (csgoEntryAct vnl))).Nodup)
    (hA : refresh_csgo_db_maps vnl thumbA dbA pageA = .ok stA)
    (hB0 : keysNodup dbB)
    (hB1 : (pageB.filterMap (actId cs2EntryAct)).Nodup)
    (hB : refresh_cs2_db_maps thumbB dbB pageB = .ok stB) :
    refresh_csgo_db_maps vnl thumbA stA.db pageA = .ok ⟨stA.db, 0, 0, 0⟩ ∧
    refresh_cs2_db_maps thumbB stB.db pageB = .ok ⟨stB.db, 0, 0, 0⟩ := by
  constructor
  · exact runPage_idem (csgoCreate_key thumbA) (csgoUpdate_key thumbA)
      (csgoUpdate_create thumbA) (csgoUpdate_idem thumbA)
      (csgoUpdate_unchanged thumbA) dbA pageA stA hA0 hA1 hA
  · exact runPage_idem (cs2Create_key thumbB) (cs2Update_key thumbB)
      (cs2Update_create thumbB) (cs2Update_idem thumbB)
      (cs2Update_unchanged thumbB) dbB pageB stB hB0 hB1 hB

/-- Witness for `refresh_idempotent`: one-entry pages for both families,
starting from an empty cache; the first run inserts one row, the second run
re-reads the same page and reports zero updates. -/
theorem refresh_idempotent_witness :
    (keysNodup ([] : List DbMap) ∧
     (([csgoEntryA] : List JSON).filterMap
        (actId (csgoEntryAct []))).Nodup ∧
     refresh_csgo_db_maps [] (fun _ => none) [] [csgoEntryA] =
       .ok ⟨[csgoRowA], 1, 0, 0⟩ ∧
     (([cs2FullEntry] : List JSON).filterMap (actId cs2EntryAct)).Nodup ∧
     refresh_cs2_db_maps (fun _ => none) [] [cs2FullEntry] =
       .ok ⟨[cs2RowD], 1, 0, 0⟩) ∧
    (refresh_csgo_db_maps [] (fun _ => none) [csgoRowA] [csgoEntryA] =
       .ok ⟨[csgoRowA], 0, 0, 0⟩ ∧
     refresh_cs2_db_maps (fun _ => none) [cs2RowD] [cs2FullEntry] =
       .ok ⟨[cs2RowD], 0, 0, 0⟩) := by
  refine ⟨⟨by rw [keysNodup]; decide, by decide, by decide, by decide,
    by decide⟩, ?_⟩
  exact refresh_idempotent [] (fun _ => none) (fun _ => none) [] []
    [csgoEntryA] [cs2FullEntry] ⟨[csgoRowA], 1, 0, 0⟩ ⟨[cs2RowD], 1, 0, 0⟩
    (by rw [keysNodup]; decide) (by decide) (by decide)
    (by rw [keysNodup]; decide) (by decide) (by decide)

end Kzkitty
